import Mathlib

/-!
Verification development for the clad-token compliance ledger.

The definitions below are a shallow embedding of the token ledger in
`pallets/clad-token/src/lib.rs` (the six dispatchables `mint`, `transfer`,
`freeze`, `unfreeze`, `add_to_whitelist`, `remove_from_whitelist` and the
genesis build), together with the runtime's admin-origin resolution in
`runtime/src/lib.rs` (`EnsureStorageAdmin`, `CladTokenAdminOrigin`).

Machine integers: `u128` values are embedded as `Nat` together with the
explicit bound `u128MAX = 2^128 - 1`; `u128::checked_add` and
`u128::saturating_add` are embedded accordingly.

Storage maps with `ValueQuery` defaults are embedded as total functions
(`Balances : α → Nat` with default 0, `Frozen`/`Whitelist : α → Bool` with
default `false`), matching the getter semantics of the pallet storage.
-/

namespace CladToken

/-- `u128::MAX` as a natural number. -/
def u128MAX : Nat := 2 ^ 128 - 1

/-- `u128::checked_add`: `some (a + b)` when the sum fits in 128 bits,
`none` on overflow. -/
def checked_add (a b : Nat) : Option Nat :=
  if a + b ≤ u128MAX then some (a + b) else none

/-- `u128::saturating_add`: the sum clamped to `u128::MAX`. -/
def saturating_add (a b : Nat) : Nat :=
  min (a + b) u128MAX

/-- The pallet's persistent storage, one field per storage item of
`pallets/clad-token/src/lib.rs` plus the `Admin` cell referenced by the
runtime (`pallet_clad_token::Admin::<Runtime>` in `runtime/src/lib.rs`).
Token name and symbol are byte strings, kept as `List Nat`. -/
structure LedgerState (α : Type) where
  TokenName : List Nat
  TokenSymbol : List Nat
  Decimals : Nat
  TotalSupply : Nat
  Balances : α → Nat
  Frozen : α → Bool
  Whitelist : α → Bool
  Admin : Option α

/-- Runtime origins relevant to the ledger: `Root`, `Signed(who)`, `None`. -/
inductive Origin (α : Type) where
  | root
  | signed (who : α)
  | none

/-- Dispatch errors of the pallet (`Error<T>`) plus the framework's
`BadOrigin` returned by a failed origin check. -/
inductive Err where
  | InsufficientBalance
  | NotWhitelisted
  | AccountFrozen
  | Overflow
  | BadOrigin
deriving DecidableEq

/-- Events deposited by the pallet (`Event<T>`), plus the `AdminChanged`
event of admin rotation referenced by the runtime tests. -/
inductive LedgerEvent (α : Type) where
  | Transferred (from_ : α) (to_ : α) (amount : Nat)
  | Minted (to_ : α) (amount : Nat)
  | Frozen (account : α)
  | Unfrozen (account : α)
  | Whitelisted (account : α)
  | RemovedFromWhitelist (account : α)
  | AdminChanged (old_admin : Option α) (new_admin : α)

/-- `RuntimeOrigin::into_signer`: the signing account of a signed origin. -/
def into_signer {α : Type} : Origin α → Option α
  | .signed who => some who
  | _ => Option.none

/-- `frame_system::ensure_signed`: succeeds exactly on signed origins. -/
def ensure_signed {α : Type} : Origin α → Option α :=
  into_signer

/-- `EnsureRoot`: succeeds exactly on the root origin. -/
def ensure_root {α : Type} : Origin α → Bool
  | .root => true
  | _ => false

/-- `EnsureStorageAdmin::try_origin` from `runtime/src/lib.rs`: succeeds iff
an admin is present in the `Admin` storage cell and the origin is signed by
exactly that account (the returned success value, the signer itself, is not
used by any dispatchable, so only the success bit is embedded). -/
def ensure_storage_admin {α : Type} [DecidableEq α] (admin : Option α) (o : Origin α) : Bool :=
  match admin with
  | some storage_admin =>
    match into_signer o with
    | some signer => decide (signer = storage_admin)
    | Option.none => false
  | Option.none => false

/-- `EnsureSignedBy<Who>`: succeeds iff the origin is signed by `who`. -/
def ensure_signed_by {α : Type} [DecidableEq α] (who : α) (o : Origin α) : Bool :=
  match into_signer o with
  | some signer => decide (signer = who)
  | Option.none => false

/-- `CladTokenAdminOrigin` from `runtime/src/lib.rs`:
`EitherOfDiverse<EnsureRoot, EitherOfDiverse<EnsureStorageAdmin,
EnsureSignedBy<CladTokenAdmin>>>`, i.e. short-circuit disjunction in that
order. `fallback` stands for the compile-time `CladTokenAdmin` constant. -/
def cladTokenAdminOrigin {α : Type} [DecidableEq α] (fallback : α) (admin : Option α)
    (o : Origin α) : Bool :=
  ensure_root o || (ensure_storage_admin admin o || ensure_signed_by fallback o)

variable {α : Type} [DecidableEq α]

/-- `Pallet::mint` (dispatchable, `AdminOrigin` instantiated with the
runtime's `CladTokenAdminOrigin`): origin check, overflow check on
`TotalSupply`, overflow check on `Balances[to_]`, then both writes and the
`Minted` event. -/
def mint (fallback : α) (o : Origin α) (to_ : α) (amount : Nat) (s : LedgerState α) :
    Except Err (LedgerState α × LedgerEvent α) :=
  if cladTokenAdminOrigin fallback s.Admin o = true then
    match checked_add s.TotalSupply amount with
    | Option.none => .error .Overflow
    | some new_supply =>
      match checked_add (s.Balances to_) amount with
      | Option.none => .error .Overflow
      | some new_balance =>
        .ok ({ s with TotalSupply := new_supply
                      Balances := Function.update s.Balances to_ new_balance },
             .Minted to_ amount)
  else .error .BadOrigin

/-- `Pallet::transfer` (dispatchable): `ensure_signed`, whitelist checks on
sender and receiver, freeze check on sender, balance check, self-transfer
short circuit, receiver overflow check, then the two balance writes (sender
first, receiver second) and the `Transferred` event. -/
def transfer (o : Origin α) (to_ : α) (amount : Nat) (s : LedgerState α) :
    Except Err (LedgerState α × LedgerEvent α) :=
  match ensure_signed o with
  | Option.none => .error .BadOrigin
  | some sender =>
    if s.Whitelist sender = true then
      if s.Whitelist to_ = true then
        if s.Frozen sender = false then
          let sender_balance := s.Balances sender
          if amount ≤ sender_balance then
            if sender = to_ then
              .ok (s, .Transferred sender to_ amount)
            else
              match checked_add (s.Balances to_) amount with
              | Option.none => .error .Overflow
              | some new_receiver_balance =>
                let debited := Function.update s.Balances sender (sender_balance - amount)
                .ok ({ s with Balances := Function.update debited to_ new_receiver_balance },
                     .Transferred sender to_ amount)
          else .error .InsufficientBalance
        else .error .AccountFrozen
      else .error .NotWhitelisted
    else .error .NotWhitelisted

/-- `Pallet::freeze` (dispatchable): origin check, insert `true` into
`Frozen`, `Frozen` event. -/
def freeze (fallback : α) (o : Origin α) (account : α) (s : LedgerState α) :
    Except Err (LedgerState α × LedgerEvent α) :=
  if cladTokenAdminOrigin fallback s.Admin o = true then
    .ok ({ s with Frozen := Function.update s.Frozen account true }, .Frozen account)
  else .error .BadOrigin

/-- `Pallet::unfreeze` (dispatchable): origin check, remove from `Frozen`
(i.e. reset to the `ValueQuery` default `false`), `Unfrozen` event. -/
def unfreeze (fallback : α) (o : Origin α) (account : α) (s : LedgerState α) :
    Except Err (LedgerState α × LedgerEvent α) :=
  if cladTokenAdminOrigin fallback s.Admin o = true then
    .ok ({ s with Frozen := Function.update s.Frozen account false }, .Unfrozen account)
  else .error .BadOrigin

/-- `Pallet::add_to_whitelist` (dispatchable): origin check, insert `true`
into `Whitelist`, `Whitelisted` event. -/
def add_to_whitelist (fallback : α) (o : Origin α) (account : α) (s : LedgerState α) :
    Except Err (LedgerState α × LedgerEvent α) :=
  if cladTokenAdminOrigin fallback s.Admin o = true then
    .ok ({ s with Whitelist := Function.update s.Whitelist account true }, .Whitelisted account)
  else .error .BadOrigin

/-- `Pallet::remove_from_whitelist` (dispatchable): origin check, remove
from `Whitelist` (reset to default `false`), `RemovedFromWhitelist` event. -/
def remove_from_whitelist (fallback : α) (o : Origin α) (account : α) (s : LedgerState α) :
    Except Err (LedgerState α × LedgerEvent α) :=
  if cladTokenAdminOrigin fallback s.Admin o = true then
    .ok ({ s with Whitelist := Function.update s.Whitelist account false },
         .RemovedFromWhitelist account)
  else .error .BadOrigin

/-- Modelled from the spec: the `set_admin` dispatchable and the `Admin`
storage cell are part of this repository (the runtime references
`pallet_clad_token::Admin::<Runtime>` and `Call::set_admin`, and the runtime
tests exercise them), but their definitions are not among the provided
pallet sources. Per spec section 4.2: caller privileged; no precondition;
the previous `Admin` is recorded in the `AdminChanged` event;
`Admin := Some(new_admin)`; `new_admin` is unconditionally added to the
whitelist; the outgoing admin is not removed from the whitelist. -/
def set_admin (fallback : α) (o : Origin α) (new_admin : α) (s : LedgerState α) :
    Except Err (LedgerState α × LedgerEvent α) :=
  if cladTokenAdminOrigin fallback s.Admin o = true then
    .ok ({ s with Admin := some new_admin
                  Whitelist := Function.update s.Whitelist new_admin true },
         .AdminChanged s.Admin new_admin)
  else .error .BadOrigin

/-- The six dispatchable calls of the pallet sources (the call enum). -/
inductive Call (α : Type) where
  | mint (to_ : α) (amount : Nat)
  | transfer (to_ : α) (amount : Nat)
  | freeze (account : α)
  | unfreeze (account : α)
  | add_to_whitelist (account : α)
  | remove_from_whitelist (account : α)

/-- Run one dispatchable on the state, returning its result. -/
def runCall (fallback : α) (o : Origin α) (c : Call α) (s : LedgerState α) :
    Except Err (LedgerState α × LedgerEvent α) :=
  match c with
  | .mint to_ amount => mint fallback o to_ amount s
  | .transfer to_ amount => transfer o to_ amount s
  | .freeze account => freeze fallback o account s
  | .unfreeze account => unfreeze fallback o account s
  | .add_to_whitelist account => add_to_whitelist fallback o account s
  | .remove_from_whitelist account => remove_from_whitelist fallback o account s

/-- Transactional dispatch: on success the new state, on any error the
state is left unchanged (per-invocation atomicity of the dispatcher). -/
def dispatch (fallback : α) (o : Origin α) (c : Call α) (s : LedgerState α) : LedgerState α :=
  match runCall fallback o c s with
  | .ok (s', _) => s'
  | .error _ => s

/-- One ledger transition: some call under some origin was dispatched. -/
def step (fallback : α) (s s' : LedgerState α) : Prop :=
  ∃ o c, s' = dispatch fallback o c s

/-- `GenesisConfig<T>` of the pallet. -/
structure GenesisConfig (α : Type) where
  admin : Option α
  token_name : List Nat
  token_symbol : List Nat
  decimals : Nat
  whitelisted_accounts : List α
  initial_balances : List (α × Nat)

/-- The state written by `BuildGenesisConfig::build` when it does not panic:
metadata, whitelisting of the genesis admin (the `Admin` storage cell itself
is not written at genesis) and of the listed accounts, balance inserts in
list order (later pairs overwrite earlier ones for a repeated account), and
`TotalSupply` as the `saturating_add` fold of the listed amounts. -/
def genesisState (cfg : GenesisConfig α) : LedgerState α :=
  { TokenName := cfg.token_name
    TokenSymbol := cfg.token_symbol
    Decimals := cfg.decimals
    TotalSupply := cfg.initial_balances.foldl (fun t p => saturating_add t p.2) 0
    Balances := cfg.initial_balances.foldl (fun b p => Function.update b p.1 p.2) (fun _ => 0)
    Frozen := fun _ => false
    Whitelist :=
      cfg.whitelisted_accounts.foldl (fun w a => Function.update w a true)
        (match cfg.admin with
         | some a => Function.update (fun _ => false) a true
         | Option.none => fun _ => false)
    Admin := Option.none }

/-- `BuildGenesisConfig::build`: panics (here: `none`) exactly when the
token name exceeds 64 bytes or the token symbol exceeds 16 bytes (the two
`expect`s on the `BoundedVec` conversions); otherwise writes the state. -/
def genesisBuild (cfg : GenesisConfig α) : Option (LedgerState α) :=
  if cfg.token_name.length ≤ 64 ∧ cfg.token_symbol.length ≤ 16 then
    some (genesisState cfg)
  else Option.none

/-- A state is reachable from a genesis configuration when the genesis
build succeeds and a finite sequence of dispatched calls leads to it. -/
def reachable (fallback : α) (cfg : GenesisConfig α) (s : LedgerState α) : Prop :=
  ∃ s₀, genesisBuild cfg = some s₀ ∧ Relation.ReflTransGen (step fallback) s₀ s

/-- The sum of all account balances (the account type is a fixed finite
universe). -/
def sumBalances [Fintype α] (s : LedgerState α) : Nat :=
  ∑ a, s.Balances a

/-- The supply-conservation invariant of the spec:
`TotalSupply == Σ_accounts Balances[account]`. -/
def supplyInv [Fintype α] (s : LedgerState α) : Prop :=
  s.TotalSupply = sumBalances s

/-- Whether a dispatch result is a success. -/
def isOk {ε β : Type} : Except ε β → Bool
  | .ok _ => true
  | .error _ => false

/-- A concrete two-account state: account 0 holds 10 tokens, both accounts
whitelisted, nobody frozen, no storage admin. -/
def stateA : LedgerState (Fin 2) :=
  { TokenName := []
    TokenSymbol := []
    Decimals := 6
    TotalSupply := 10
    Balances := fun a => if a = 0 then 10 else 0
    Frozen := fun _ => false
    Whitelist := fun _ => true
    Admin := Option.none }

/-- `stateA` with the storage admin rotated to account 1. -/
def stateAdminSet : LedgerState (Fin 2) :=
  { stateA with Admin := some 1 }

/-- `stateA` with account 0 frozen. -/
def stateFrozen : LedgerState (Fin 2) :=
  { stateA with Frozen := fun a => decide (a = 0) }

/-- A genesis configuration with a duplicated balance account: the pair
list `[(0, 1), (0, 1)]` sums to 2 while the stored balance of account 0 is
overwritten to 1. -/
def cfgDup : GenesisConfig (Fin 1) :=
  { admin := Option.none
    token_name := []
    token_symbol := []
    decimals := 0
    whitelisted_accounts := []
    initial_balances := [(0, 1), (0, 1)] }

/-- A well-formed genesis configuration: distinct accounts, small in-range
balances. -/
def cfgOk : GenesisConfig (Fin 2) :=
  { admin := some 0
    token_name := [75, 90]
    token_symbol := [75]
    decimals := 6
    whitelisted_accounts := [0, 1]
    initial_balances := [(0, 5), (1, 7)] }

/-- A genesis configuration with distinct accounts whose balances sum past
`u128::MAX`. -/
def cfgSat : GenesisConfig (Fin 2) :=
  { admin := Option.none
    token_name := []
    token_symbol := []
    decimals := 0
    whitelisted_accounts := []
    initial_balances := [(0, u128MAX), (1, 2)] }

/-- A genesis configuration whose listed amounts sum past `u128::MAX` but
with a duplicated account, so that the stored balances sum only to 2. -/
def cfgSatDup : GenesisConfig (Fin 2) :=
  { admin := Option.none
    token_name := []
    token_symbol := []
    decimals := 0
    whitelisted_accounts := []
    initial_balances := [(0, u128MAX), (0, 1), (1, 1)] }

theorem checked_add_eq_none_iff (a b : Nat) : checked_add a b = Option.none ↔ u128MAX < a + b := by
  unfold checked_add
  split <;> simp <;> omega

theorem checked_add_eq_some_iff (a b c : Nat) :
    checked_add a b = some c ↔ a + b ≤ u128MAX ∧ c = a + b := by
  unfold checked_add
  split <;> simp <;> omega

theorem transfer_ok_totalSupply (o : Origin α) (to_ : α) (amount : Nat) (s s' : LedgerState α)
    (ev : LedgerEvent α) (h : transfer o to_ amount s = .ok (s', ev)) :
    s'.TotalSupply = s.TotalSupply := by
  unfold transfer at h
  cases o with
  | root => simp [ensure_signed, into_signer] at h
  | none => simp [ensure_signed, into_signer] at h
  | signed sender =>
    simp only [ensure_signed, into_signer] at h
    split at h
    · split at h
      · split at h
        · split at h
          · split at h
            · simp only [Except.ok.injEq, Prod.mk.injEq] at h
              rw [← h.1]
            · split at h
              · cases h
              · simp only [Except.ok.injEq, Prod.mk.injEq] at h
                rw [← h.1]
          · cases h
        · cases h
      · cases h
    · cases h

/-- C7: for every state and every `transfer` invocation — successful or
failed, under any origin, receiver, and amount — the dispatched state's
`TotalSupply` equals the original `TotalSupply`. -/
theorem transfer_preserves_totalSupply (fallback : α) (o : Origin α) (to_ : α) (amount : Nat)
    (s : LedgerState α) :
    (dispatch fallback o (.transfer to_ amount) s).TotalSupply = s.TotalSupply := by
  have hd : dispatch fallback o (.transfer to_ amount) s =
      match transfer o to_ amount s with
      | .ok (s', _) => s'
      | .error _ => s := rfl
  rw [hd]
  cases h : transfer o to_ amount s with
  | error e => rfl
  | ok p =>
    obtain ⟨s', ev⟩ := p
    exact transfer_ok_totalSupply o to_ amount s s' ev h

/-- C4: with an authorized caller, `mint` fails with `Overflow` exactly when
`TotalSupply + amount` or `Balances[to] + amount` exceeds the 128-bit
range, and on such a failure the dispatched state is unchanged (in
particular neither `TotalSupply` nor `Balances[to]` is modified). -/
theorem mint_overflow_spec (fallback : α) (o : Origin α) (to_ : α) (amount : Nat)
    (s : LedgerState α) (h : cladTokenAdminOrigin fallback s.Admin o = true) :
    (mint fallback o to_ amount s = .error .Overflow ↔
      u128MAX < s.TotalSupply + amount ∨ u128MAX < s.Balances to_ + amount)
    ∧ (mint fallback o to_ amount s = .error .Overflow →
        dispatch fallback o (.mint to_ amount) s = s) := by
  constructor
  · by_cases h1 : s.TotalSupply + amount ≤ u128MAX <;>
      by_cases h2 : s.Balances to_ + amount ≤ u128MAX <;>
      simp [mint, checked_add, h, h1, h2] <;> omega
  · intro he
    simp [dispatch, runCall, he]

theorem mint_overflow_spec_witness :
    cladTokenAdminOrigin (0 : Fin 2) stateA.Admin .root = true
    ∧ ((mint (0 : Fin 2) .root 0 (2 ^ 128) stateA = .error .Overflow ↔
        u128MAX < stateA.TotalSupply + 2 ^ 128 ∨ u128MAX < stateA.Balances 0 + 2 ^ 128)
      ∧ (mint (0 : Fin 2) .root 0 (2 ^ 128) stateA = .error .Overflow →
          dispatch (0 : Fin 2) .root (.mint 0 (2 ^ 128)) stateA = stateA)) :=
  ⟨by decide, mint_overflow_spec 0 .root 0 (2 ^ 128) stateA (by decide)⟩

/-- C6: a self-transfer by a whitelisted, unfrozen sender holding at least
`amount` succeeds, returns the state completely unchanged, and still emits
the `Transferred` event carrying the requested amount. -/
theorem self_transfer_spec (sender : α) (amount : Nat) (s : LedgerState α)
    (hw : s.Whitelist sender = true) (hf : s.Frozen sender = false)
    (hb : amount ≤ s.Balances sender) :
    transfer (.signed sender) sender amount s = .ok (s, .Transferred sender sender amount) := by
  simp [transfer, ensure_signed, into_signer, hw, hf, hb]

theorem self_transfer_spec_witness :
    stateA.Whitelist 0 = true ∧ stateA.Frozen 0 = false ∧ 5 ≤ stateA.Balances 0
    ∧ transfer (.signed (0 : Fin 2)) 0 5 stateA = .ok (stateA, .Transferred 0 0 5) :=
  ⟨by decide, by decide, by decide, self_transfer_spec 0 5 stateA (by decide) (by decide) (by decide)⟩

/-- Exhaustive case analysis of `transfer` under a signed origin: exactly
one of seven outcomes occurs, each tagged with the conditions that led to
it. -/
theorem transfer_cases (s : LedgerState α) (sender to_ : α) (amount : Nat) :
    (s.Whitelist sender = false ∧
      transfer (.signed sender) to_ amount s = .error .NotWhitelisted)
    ∨ (s.Whitelist sender = true ∧ s.Whitelist to_ = false ∧
        transfer (.signed sender) to_ amount s = .error .NotWhitelisted)
    ∨ (s.Whitelist sender = true ∧ s.Whitelist to_ = true ∧ s.Frozen sender = true ∧
        transfer (.signed sender) to_ amount s = .error .AccountFrozen)
    ∨ (s.Whitelist sender = true ∧ s.Whitelist to_ = true ∧ s.Frozen sender = false ∧
        s.Balances sender < amount ∧
        transfer (.signed sender) to_ amount s = .error .InsufficientBalance)
    ∨ (s.Whitelist sender = true ∧ s.Whitelist to_ = true ∧ s.Frozen sender = false ∧
        amount ≤ s.Balances sender ∧ sender = to_ ∧
        transfer (.signed sender) to_ amount s = .ok (s, .Transferred sender to_ amount))
    ∨ (s.Whitelist sender = true ∧ s.Whitelist to_ = true ∧ s.Frozen sender = false ∧
        amount ≤ s.Balances sender ∧ sender ≠ to_ ∧ u128MAX < s.Balances to_ + amount ∧
        transfer (.signed sender) to_ amount s = .error .Overflow)
    ∨ (s.Whitelist sender = true ∧ s.Whitelist to_ = true ∧ s.Frozen sender = false ∧
        amount ≤ s.Balances sender ∧ sender ≠ to_ ∧ s.Balances to_ + amount ≤ u128MAX ∧
        transfer (.signed sender) to_ amount s =
          .ok ({ s with Balances := Function.update (Function.update s.Balances sender (s.Balances sender - amount)) to_ (s.Balances to_ + amount) },
               .Transferred sender to_ amount)) := by
  by_cases hws : s.Whitelist sender = true
  · by_cases hwt : s.Whitelist to_ = true
    · by_cases hf : s.Frozen sender = false
      · by_cases hb : amount ≤ s.Balances sender
        · by_cases hst : sender = to_
          · subst hst
            refine Or.inr (Or.inr (Or.inr (Or.inr (Or.inl ⟨hws, hwt, hf, hb, rfl, ?_⟩))))
            simp [transfer, ensure_signed, into_signer, hws, hwt, hf, hb]
          · by_cases hov : s.Balances to_ + amount ≤ u128MAX
            · refine Or.inr (Or.inr (Or.inr (Or.inr (Or.inr (Or.inr
                ⟨hws, hwt, hf, hb, hst, hov, ?_⟩)))))
              simp [transfer, ensure_signed, into_signer, hws, hwt, hf, hb, hst,
                checked_add, hov]
            · refine Or.inr (Or.inr (Or.inr (Or.inr (Or.inr (Or.inl
                ⟨hws, hwt, hf, hb, hst, by omega, ?_⟩)))))
              simp [transfer, ensure_signed, into_signer, hws, hwt, hf, hb, hst,
                checked_add, hov]
        · refine Or.inr (Or.inr (Or.inr (Or.inl ⟨hws, hwt, hf, by omega, ?_⟩)))
          simp [transfer, ensure_signed, into_signer, hws, hwt, hf, hb]
      · refine Or.inr (Or.inr (Or.inl ⟨hws, hwt, by simpa using hf, ?_⟩))
        simp [transfer, ensure_signed, into_signer, hws, hwt, hf]
    · refine Or.inr (Or.inl ⟨hws, by simpa using hwt, ?_⟩)
      simp [transfer, ensure_signed, into_signer, hws, hwt]
  · refine Or.inl ⟨by simpa using hws, ?_⟩
    simp [transfer, ensure_signed, into_signer, hws]

/-- C5: `transfer` succeeds exactly when sender and receiver are
whitelisted, the sender is not frozen, the sender's balance covers the
amount, and (for a non-self transfer) the receiver's balance does not
overflow; each failure is classified by exactly the condition the spec
names, any failure leaves the dispatched state unchanged, transferring the
full balance succeeds leaving the sender at 0, and transferring balance+1
fails with `InsufficientBalance`. The success condition does not consult
the receiver's frozen flag, so a frozen receiver does not block a
transfer. -/
theorem transfer_spec (fallback : α) (s : LedgerState α) (sender to_ : α) (amount : Nat) :
    (isOk (transfer (.signed sender) to_ amount s) = true ↔
      (s.Whitelist sender = true ∧ s.Whitelist to_ = true ∧ s.Frozen sender = false ∧
        amount ≤ s.Balances sender ∧ (sender ≠ to_ → s.Balances to_ + amount ≤ u128MAX)))
    ∧ (transfer (.signed sender) to_ amount s = .error .NotWhitelisted ↔
        (s.Whitelist sender = false ∨ s.Whitelist to_ = false))
    ∧ (transfer (.signed sender) to_ amount s = .error .AccountFrozen ↔
        (s.Whitelist sender = true ∧ s.Whitelist to_ = true ∧ s.Frozen sender = true))
    ∧ (transfer (.signed sender) to_ amount s = .error .InsufficientBalance ↔
        (s.Whitelist sender = true ∧ s.Whitelist to_ = true ∧ s.Frozen sender = false ∧
          s.Balances sender < amount))
    ∧ (transfer (.signed sender) to_ amount s = .error .Overflow ↔
        (s.Whitelist sender = true ∧ s.Whitelist to_ = true ∧ s.Frozen sender = false ∧
          amount ≤ s.Balances sender ∧ sender ≠ to_ ∧ u128MAX < s.Balances to_ + amount))
    ∧ (∀ e, transfer (.signed sender) to_ amount s = .error e →
        dispatch fallback (.signed sender) (.transfer to_ amount) s = s)
    ∧ (sender ≠ to_ → s.Whitelist sender = true → s.Whitelist to_ = true →
        s.Frozen sender = false → s.Balances to_ + s.Balances sender ≤ u128MAX →
        ∃ s' ev, transfer (.signed sender) to_ (s.Balances sender) s = .ok (s', ev) ∧
          s'.Balances sender = 0)
    ∧ (s.Whitelist sender = true → s.Whitelist to_ = true → s.Frozen sender = false →
        transfer (.signed sender) to_ (s.Balances sender + 1) s =
          .error .InsufficientBalance) := by
  refine ⟨?_, ?_, ?_, ?_, ?_, ?_, ?_, ?_⟩
  · rcases transfer_cases s sender to_ amount with
      ⟨h1, he⟩ | ⟨h1, h2, he⟩ | ⟨h1, h2, h3, he⟩ | ⟨h1, h2, h3, h4, he⟩ |
      ⟨h1, h2, h3, h4, h5, he⟩ | ⟨h1, h2, h3, h4, h5, h6, he⟩ |
      ⟨h1, h2, h3, h4, h5, h6, he⟩ <;>
      rw [he] <;> simp_all [isOk]
  · rcases transfer_cases s sender to_ amount with
      ⟨h1, he⟩ | ⟨h1, h2, he⟩ | ⟨h1, h2, h3, he⟩ | ⟨h1, h2, h3, h4, he⟩ |
      ⟨h1, h2, h3, h4, h5, he⟩ | ⟨h1, h2, h3, h4, h5, h6, he⟩ |
      ⟨h1, h2, h3, h4, h5, h6, he⟩ <;>
      rw [he] <;> simp_all
  · rcases transfer_cases s sender to_ amount with
      ⟨h1, he⟩ | ⟨h1, h2, he⟩ | ⟨h1, h2, h3, he⟩ | ⟨h1, h2, h3, h4, he⟩ |
      ⟨h1, h2, h3, h4, h5, he⟩ | ⟨h1, h2, h3, h4, h5, h6, he⟩ |
      ⟨h1, h2, h3, h4, h5, h6, he⟩ <;>
      rw [he] <;> simp_all
  · rcases transfer_cases s sender to_ amount with
      ⟨h1, he⟩ | ⟨h1, h2, he⟩ | ⟨h1, h2, h3, he⟩ | ⟨h1, h2, h3, h4, he⟩ |
      ⟨h1, h2, h3, h4, h5, he⟩ | ⟨h1, h2, h3, h4, h5, h6, he⟩ |
      ⟨h1, h2, h3, h4, h5, h6, he⟩ <;>
      rw [he] <;> simp_all
  · rcases transfer_cases s sender to_ amount with
      ⟨h1, he⟩ | ⟨h1, h2, he⟩ | ⟨h1, h2, h3, he⟩ | ⟨h1, h2, h3, h4, he⟩ |
      ⟨h1, h2, h3, h4, h5, he⟩ | ⟨h1, h2, h3, h4, h5, h6, he⟩ |
      ⟨h1, h2, h3, h4, h5, h6, he⟩ <;>
      rw [he] <;> simp_all
  · intro e he
    simp [dispatch, runCall, he]
  · intro hne hws hwt hf hov
    have h1 : transfer (.signed sender) to_ (s.Balances sender) s =
        .ok ({ s with Balances := Function.update (Function.update s.Balances sender (s.Balances sender - s.Balances sender)) to_ (s.Balances to_ + s.Balances sender) },
             .Transferred sender to_ (s.Balances sender)) := by
      simp [transfer, ensure_signed, into_signer, hws, hwt, hf, hne, checked_add, hov]
    refine ⟨_, _, h1, ?_⟩
    simp [Function.update_apply, hne]
  · intro hws hwt hf
    have hlt : ¬ (s.Balances sender + 1 ≤ s.Balances sender) := by omega
    simp [transfer, ensure_signed, into_signer, hws, hwt, hf, hlt]


theorem transfer_spec_witness :
    isOk (transfer (.signed (0 : Fin 2)) 1 5 stateA) = true :=
  (transfer_spec 0 stateA 0 1 5).1.mpr (by decide)

/-- C8: with an authorized caller, each compliance toggle succeeds on an
account already in the target state and returns the ledger unchanged apart
from its event, and dispatching the same toggle twice yields the same state
as dispatching it once. -/
theorem compliance_toggle_idempotent (fallback : α) (o : Origin α) (s : LedgerState α) (a : α)
    (h : cladTokenAdminOrigin fallback s.Admin o = true) :
    (s.Frozen a = true → freeze fallback o a s = .ok (s, .Frozen a))
    ∧ (s.Frozen a = false → unfreeze fallback o a s = .ok (s, .Unfrozen a))
    ∧ (s.Whitelist a = true → add_to_whitelist fallback o a s = .ok (s, .Whitelisted a))
    ∧ (s.Whitelist a = false →
        remove_from_whitelist fallback o a s = .ok (s, .RemovedFromWhitelist a))
    ∧ dispatch fallback o (.freeze a) (dispatch fallback o (.freeze a) s) =
        dispatch fallback o (.freeze a) s
    ∧ dispatch fallback o (.unfreeze a) (dispatch fallback o (.unfreeze a) s) =
        dispatch fallback o (.unfreeze a) s
    ∧ dispatch fallback o (.add_to_whitelist a) (dispatch fallback o (.add_to_whitelist a) s) =
        dispatch fallback o (.add_to_whitelist a) s
    ∧ dispatch fallback o (.remove_from_whitelist a)
          (dispatch fallback o (.remove_from_whitelist a) s) =
        dispatch fallback o (.remove_from_whitelist a) s := by
  refine ⟨?_, ?_, ?_, ?_, ?_, ?_, ?_, ?_⟩
  · intro ha
    have hupd : ({ s with Frozen := Function.update s.Frozen a true } : LedgerState α) = s := by
      rw [← ha, Function.update_eq_self]
    simp [freeze, h, hupd]
  · intro ha
    have hupd : ({ s with Frozen := Function.update s.Frozen a false } : LedgerState α) = s := by
      rw [← ha, Function.update_eq_self]
    simp [unfreeze, h, hupd]
  · intro ha
    have hupd : ({ s with Whitelist := Function.update s.Whitelist a true } : LedgerState α)
        = s := by
      rw [← ha, Function.update_eq_self]
    simp [add_to_whitelist, h, hupd]
  · intro ha
    have hupd : ({ s with Whitelist := Function.update s.Whitelist a false } : LedgerState α)
        = s := by
      rw [← ha, Function.update_eq_self]
    simp [remove_from_whitelist, h, hupd]
  · simp [dispatch, runCall, freeze, h, Function.update_idem]
  · simp [dispatch, runCall, unfreeze, h, Function.update_idem]
  · simp [dispatch, runCall, add_to_whitelist, h, Function.update_idem]
  · simp [dispatch, runCall, remove_from_whitelist, h, Function.update_idem]

theorem compliance_toggle_idempotent_witness :
    cladTokenAdminOrigin (0 : Fin 2) stateFrozen.Admin .root = true
    ∧ freeze (0 : Fin 2) .root 0 stateFrozen = .ok (stateFrozen, .Frozen 0) :=
  ⟨by decide, (compliance_toggle_idempotent 0 .root stateFrozen 0 (by decide)).1 (by decide)⟩

/-- C3: `set_admin` (modelled from the spec, see the definition) succeeds
with no precondition beyond the privileged caller, records the previous
`Admin` in the `AdminChanged` event, sets `Admin := Some(new_admin)`,
unconditionally whitelists the new admin, and leaves every other whitelist
entry — in particular the outgoing admin's — and all balances, freeze
flags, and the supply unchanged. -/
theorem set_admin_spec (fallback : α) (o : Origin α) (s : LedgerState α) (new_admin : α)
    (h : cladTokenAdminOrigin fallback s.Admin o = true) :
    set_admin fallback o new_admin s =
      .ok ({ s with Admin := some new_admin
                    Whitelist := Function.update s.Whitelist new_admin true },
           .AdminChanged s.Admin new_admin)
    ∧ (∀ s' ev, set_admin fallback o new_admin s = .ok (s', ev) →
        s'.Admin = some new_admin ∧ s'.Whitelist new_admin = true
        ∧ (∀ b, b ≠ new_admin → s'.Whitelist b = s.Whitelist b)
        ∧ s'.Balances = s.Balances ∧ s'.Frozen = s.Frozen ∧ s'.TotalSupply = s.TotalSupply
        ∧ ev = .AdminChanged s.Admin new_admin) := by
  have hfirst : set_admin fallback o new_admin s =
      .ok ({ s with Admin := some new_admin
                    Whitelist := Function.update s.Whitelist new_admin true },
           .AdminChanged s.Admin new_admin) := by
    simp [set_admin, h]
  refine ⟨hfirst, ?_⟩
  intro s' ev hok
  rw [hfirst] at hok
  simp only [Except.ok.injEq, Prod.mk.injEq] at hok
  obtain ⟨h1, h2⟩ := hok
  subst h1
  subst h2
  refine ⟨rfl, by simp, ?_, rfl, rfl, rfl, rfl⟩
  intro b hb
  simp [Function.update_apply, hb]

theorem set_admin_spec_witness :
    cladTokenAdminOrigin (0 : Fin 2) stateA.Admin (.signed 0) = true
    ∧ set_admin (0 : Fin 2) (.signed 0) 1 stateA =
        .ok ({ stateA with Admin := some 1
                           Whitelist := Function.update stateA.Whitelist 1 true },
             .AdminChanged stateA.Admin 1) :=
  ⟨by decide, (set_admin_spec 0 (.signed 0) stateA 1 (by decide)).1⟩

/-- C9: the genesis build succeeds exactly when the token name is at most
64 bytes and the token symbol at most 16 bytes; metadata byte-length
violations are the only failure condition. -/
theorem genesis_metadata_bounds (cfg : GenesisConfig α) :
    (genesisBuild cfg).isSome = true ↔
      cfg.token_name.length ≤ 64 ∧ cfg.token_symbol.length ≤ 16 := by
  unfold genesisBuild
  split <;> simp_all

/-- C2: evaluation of the runtime's `CladTokenAdminOrigin` at a state whose
`Admin` cell is set to account 1: a non-root call signed by the fixed
fallback account 0 (distinct from the stored admin) is rejected by both
`EnsureRoot` and `EnsureStorageAdmin` yet authorized by the composed
origin — the `EnsureSignedBy` fallback path still applies although `Admin`
is present — and a privileged dispatchable (`freeze`) therefore succeeds
for it. -/
theorem fallback_authorized_despite_admin :
    stateAdminSet.Admin = some 1
    ∧ (1 : Fin 2) ≠ 0
    ∧ ensure_root (Origin.signed (0 : Fin 2)) = false
    ∧ ensure_storage_admin stateAdminSet.Admin (Origin.signed (0 : Fin 2)) = false
    ∧ cladTokenAdminOrigin (0 : Fin 2) stateAdminSet.Admin (Origin.signed 0) = true
    ∧ isOk (freeze (0 : Fin 2) (Origin.signed 0) 1 stateAdminSet) = true := by
  decide

theorem sum_update_add [Fintype α] (f : α → Nat) (a : α) (b : Nat) :
    (∑ x, Function.update f a b x) + f a = (∑ x, f x) + b := by
  rw [Finset.sum_update_of_mem (Finset.mem_univ a)]
  rw [Finset.sum_eq_sum_diff_singleton_add (Finset.mem_univ a) f]
  omega

theorem sum_foldl_update [Fintype α] (l : List (α × Nat)) (f : α → Nat)
    (hnd : (l.map Prod.fst).Nodup) (hz : ∀ p ∈ l, f p.1 = 0) :
    (∑ x, (l.foldl (fun b p => Function.update b p.1 p.2) f) x)
      = (∑ x, f x) + (l.map Prod.snd).sum := by
  induction l generalizing f with
  | nil => simp
  | cons hd tl ih =>
    simp only [List.foldl_cons, List.map_cons, List.sum_cons]
    simp only [List.map_cons, List.nodup_cons] at hnd
    have hz' : ∀ p ∈ tl, (Function.update f hd.1 hd.2) p.1 = 0 := by
      intro p hp
      have hne : p.1 ≠ hd.1 := by
        intro hcontra
        exact hnd.1 (hcontra ▸ (List.mem_map.mpr ⟨p, hp, rfl⟩))
      rw [Function.update_noteq hne]
      exact hz p (List.mem_cons_of_mem _ hp)
    rw [ih (Function.update f hd.1 hd.2) hnd.2 hz']
    have h1 := sum_update_add f hd.1 hd.2
    have h2 : f hd.1 = 0 := hz hd (List.mem_cons_self _ _)
    omega

omit [DecidableEq α] in
theorem foldl_saturating (l : List (α × Nat)) (acc : Nat) (hacc : acc ≤ u128MAX) :
    l.foldl (fun t p => saturating_add t p.2) acc
      = min (acc + (l.map Prod.snd).sum) u128MAX := by
  induction l generalizing acc with
  | nil =>
    simp only [List.foldl_nil, List.map_nil, List.sum_nil]
    omega
  | cons hd tl ih =>
    simp only [List.foldl_cons, List.map_cons, List.sum_cons]
    rw [ih (saturating_add acc hd.2) (by unfold saturating_add; omega)]
    unfold saturating_add
    omega

theorem genesisState_totalSupply (cfg : GenesisConfig α) :
    (genesisState cfg).TotalSupply = min ((cfg.initial_balances.map Prod.snd).sum) u128MAX := by
  have h : (genesisState cfg).TotalSupply
      = cfg.initial_balances.foldl (fun t p => saturating_add t p.2) 0 := rfl
  rw [h, foldl_saturating _ 0 (Nat.zero_le _)]
  omega

theorem genesisState_sumBalances [Fintype α] (cfg : GenesisConfig α)
    (hnd : (cfg.initial_balances.map Prod.fst).Nodup) :
    sumBalances (genesisState cfg) = (cfg.initial_balances.map Prod.snd).sum := by
  have h : sumBalances (genesisState cfg)
      = ∑ x, (cfg.initial_balances.foldl (fun b p => Function.update b p.1 p.2)
          (fun _ => 0)) x := rfl
  rw [h, sum_foldl_update _ _ hnd (fun p _ => rfl)]
  simp

theorem genesisState_supplyInv [Fintype α] (cfg : GenesisConfig α)
    (hnd : (cfg.initial_balances.map Prod.fst).Nodup)
    (hsum : (cfg.initial_balances.map Prod.snd).sum ≤ u128MAX) :
    supplyInv (genesisState cfg) := by
  unfold supplyInv
  rw [genesisState_totalSupply, genesisState_sumBalances cfg hnd]
  omega

theorem mint_ok_fields (fallback : α) (o : Origin α) (to_ : α) (amount : Nat)
    (s s' : LedgerState α) (ev : LedgerEvent α)
    (h : mint fallback o to_ amount s = .ok (s', ev)) :
    s'.TotalSupply = s.TotalSupply + amount
    ∧ s'.Balances = Function.update s.Balances to_ (s.Balances to_ + amount) := by
  unfold mint at h
  by_cases ha : cladTokenAdminOrigin fallback s.Admin o = true
  · rw [if_pos ha] at h
    cases hns : checked_add s.TotalSupply amount with
    | none => simp [hns] at h
    | some ns =>
      simp only [hns] at h
      cases hnb : checked_add (s.Balances to_) amount with
      | none => simp [hnb] at h
      | some nb =>
        simp only [hnb, Except.ok.injEq, Prod.mk.injEq] at h
        obtain ⟨h1, h2⟩ := h
        subst h1
        rw [checked_add_eq_some_iff] at hns hnb
        exact ⟨by simp [hns.2], by simp [hnb.2]⟩
  · rw [if_neg ha] at h
    cases h

theorem transfer_ok_sumBalances [Fintype α] (o : Origin α) (to_ : α) (amount : Nat)
    (s s' : LedgerState α) (ev : LedgerEvent α)
    (h : transfer o to_ amount s = .ok (s', ev)) :
    sumBalances s' = sumBalances s := by
  cases o with
  | root => simp [transfer, ensure_signed, into_signer] at h
  | none => simp [transfer, ensure_signed, into_signer] at h
  | signed sender =>
    rcases transfer_cases s sender to_ amount with
      ⟨h1, he⟩ | ⟨h1, h2, he⟩ | ⟨h1, h2, h3, he⟩ | ⟨h1, h2, h3, h4, he⟩ |
      ⟨h1, h2, h3, h4, h5, he⟩ | ⟨h1, h2, h3, h4, h5, h6, he⟩ |
      ⟨h1, h2, h3, h4, h5, h6, he⟩
    · rw [he] at h; cases h
    · rw [he] at h; cases h
    · rw [he] at h; cases h
    · rw [he] at h; cases h
    · rw [he] at h
      simp only [Except.ok.injEq, Prod.mk.injEq] at h
      rw [← h.1]
    · rw [he] at h; cases h
    · rw [he] at h
      simp only [Except.ok.injEq, Prod.mk.injEq] at h
      obtain ⟨hs, _⟩ := h
      have hB : s'.Balances
          = Function.update (Function.update s.Balances sender (s.Balances sender - amount)) to_
              (s.Balances to_ + amount) := by rw [← hs]
      have hsum2 := sum_update_add
        (Function.update s.Balances sender (s.Balances sender - amount)) to_
        (s.Balances to_ + amount)
      have hsum1 := sum_update_add s.Balances sender (s.Balances sender - amount)
      have hat : (Function.update s.Balances sender (s.Balances sender - amount)) to_
          = s.Balances to_ := Function.update_noteq (Ne.symm h5) _ _
      rw [hat] at hsum2
      unfold sumBalances
      rw [hB]
      omega

theorem step_preserves_supplyInv [Fintype α] (fallback : α) (s s' : LedgerState α)
    (hstep : step fallback s s') (hinv : supplyInv s) : supplyInv s' := by
  obtain ⟨o, c, rfl⟩ := hstep
  have hd : dispatch fallback o c s =
      match runCall fallback o c s with
      | .ok (s', _) => s'
      | .error _ => s := rfl
  rw [hd]
  cases hrc : runCall fallback o c s with
  | error e => exact hinv
  | ok p =>
    obtain ⟨s', ev⟩ := p
    show supplyInv s'
    cases c with
    | mint to_ amount =>
      simp only [runCall] at hrc
      obtain ⟨hT, hB⟩ := mint_ok_fields fallback o to_ amount s s' ev hrc
      have hsum := sum_update_add s.Balances to_ (s.Balances to_ + amount)
      unfold supplyInv sumBalances at *
      rw [hT, hB]
      omega
    | transfer to_ amount =>
      simp only [runCall] at hrc
      have hT := transfer_ok_totalSupply o to_ amount s s' ev hrc
      have hB := transfer_ok_sumBalances o to_ amount s s' ev hrc
      unfold supplyInv at *
      rw [hT, hB]
      exact hinv
    | freeze account =>
      simp only [runCall] at hrc
      unfold freeze at hrc
      split at hrc
      · simp only [Except.ok.injEq, Prod.mk.injEq] at hrc
        obtain ⟨h1, _⟩ := hrc
        subst h1
        exact hinv
      · cases hrc
    | unfreeze account =>
      simp only [runCall] at hrc
      unfold unfreeze at hrc
      split at hrc
      · simp only [Except.ok.injEq, Prod.mk.injEq] at hrc
        obtain ⟨h1, _⟩ := hrc
        subst h1
        exact hinv
      · cases hrc
    | add_to_whitelist account =>
      simp only [runCall] at hrc
      unfold add_to_whitelist at hrc
      split at hrc
      · simp only [Except.ok.injEq, Prod.mk.injEq] at hrc
        obtain ⟨h1, _⟩ := hrc
        subst h1
        exact hinv
      · cases hrc
    | remove_from_whitelist account =>
      simp only [runCall] at hrc
      unfold remove_from_whitelist at hrc
      split at hrc
      · simp only [Except.ok.injEq, Prod.mk.injEq] at hrc
        obtain ⟨h1, _⟩ := hrc
        subst h1
        exact hinv
      · cases hrc

/-- C1 counterexample: a genesis configuration that repeats an account in
`initial_balances` (`[(0, 1), (0, 1)]`) yields a reachable state — the
genesis state itself — in which `TotalSupply` (2, the accumulated sum) is
not the sum of the stored balances (1, the overwritten entry). -/
theorem conservation_fails_at_duplicate_genesis :
    reachable (0 : Fin 1) cfgDup (genesisState cfgDup)
    ∧ (genesisState cfgDup).TotalSupply ≠ sumBalances (genesisState cfgDup) := by
  constructor
  · exact ⟨genesisState cfgDup, rfl, Relation.ReflTransGen.refl⟩
  · decide

/-- C1 (amended): for every genesis configuration whose listed balance
accounts are pairwise distinct and whose amounts sum to at most
`u128::MAX`, every state reachable by any sequence of the six ledger
operations satisfies `TotalSupply = Σ_accounts Balances[account]`. -/
theorem supply_conservation [Fintype α] (fallback : α) (cfg : GenesisConfig α)
    (s : LedgerState α)
    (hnd : (cfg.initial_balances.map Prod.fst).Nodup)
    (hsum : (cfg.initial_balances.map Prod.snd).sum ≤ u128MAX)
    (hreach : reachable fallback cfg s) :
    supplyInv s := by
  obtain ⟨s₀, hb, hsteps⟩ := hreach
  have h₀ : supplyInv s₀ := by
    unfold genesisBuild at hb
    split at hb
    · simp only [Option.some.injEq] at hb
      subst hb
      exact genesisState_supplyInv cfg hnd hsum
    · cases hb
  induction hsteps with
  | refl => exact h₀
  | tail _ hstepbc ih => exact step_preserves_supplyInv fallback _ _ hstepbc ih

theorem supply_conservation_witness :
    (cfgOk.initial_balances.map Prod.fst).Nodup
    ∧ (cfgOk.initial_balances.map Prod.snd).sum ≤ u128MAX
    ∧ supplyInv (genesisState cfgOk) :=
  ⟨by decide, by decide,
   supply_conservation 0 cfgOk (genesisState cfgOk) (by decide) (by decide)
     ⟨genesisState cfgOk, rfl, Relation.ReflTransGen.refl⟩⟩

/-- C10 counterexample: a genesis configuration whose listed amounts sum
past `u128::MAX` but which repeats an account
(`[(0, MAX), (0, 1), (1, 1)]`): the build succeeds and `TotalSupply` is
clamped to `u128::MAX`, but `TotalSupply` is NOT strictly less than the sum
of the stored per-account balances (which is 2 after the overwrite). -/
theorem saturating_genesis_duplicate_counterexample :
    u128MAX < (cfgSatDup.initial_balances.map Prod.snd).sum
    ∧ genesisBuild cfgSatDup = some (genesisState cfgSatDup)
    ∧ (genesisState cfgSatDup).TotalSupply = u128MAX
    ∧ ¬ (genesisState cfgSatDup).TotalSupply < sumBalances (genesisState cfgSatDup) :=
  ⟨by decide, rfl, by decide, by decide⟩

/-- C10 (amended): for every genesis configuration within metadata bounds
whose listed balance accounts are pairwise distinct and whose amounts have
a mathematical sum exceeding `u128::MAX`, the build succeeds (saturating
accumulation, no overflow failure), sets `TotalSupply` to exactly
`u128::MAX`, and that value is strictly less than the sum of the stored
per-account balances. -/
theorem saturating_genesis_spec [Fintype α] (cfg : GenesisConfig α)
    (hname : cfg.token_name.length ≤ 64) (hsymb : cfg.token_symbol.length ≤ 16)
    (hnd : (cfg.initial_balances.map Prod.fst).Nodup)
    (hsum : u128MAX < (cfg.initial_balances.map Prod.snd).sum) :
    genesisBuild cfg = some (genesisState cfg)
    ∧ (genesisState cfg).TotalSupply = u128MAX
    ∧ (genesisState cfg).TotalSupply < sumBalances (genesisState cfg) := by
  refine ⟨?_, ?_, ?_⟩
  · unfold genesisBuild
    rw [if_pos ⟨hname, hsymb⟩]
  · rw [genesisState_totalSupply]
    omega
  · rw [genesisState_totalSupply, genesisState_sumBalances cfg hnd]
    omega

theorem saturating_genesis_spec_witness :
    cfgSat.token_name.length ≤ 64 ∧ cfgSat.token_symbol.length ≤ 16
    ∧ (cfgSat.initial_balances.map Prod.fst).Nodup
    ∧ u128MAX < (cfgSat.initial_balances.map Prod.snd).sum
    ∧ (genesisState cfgSat).TotalSupply = u128MAX
    ∧ (genesisState cfgSat).TotalSupply < sumBalances (genesisState cfgSat) :=
  ⟨by decide, by decide, by decide, by decide,
   (saturating_genesis_spec cfgSat (by decide) (by decide) (by decide) (by decide)).2.1,
   (saturating_genesis_spec cfgSat (by decide) (by decide) (by decide) (by decide)).2.2⟩

end CladToken
